import Mathlib

/-!
Verification of the line-breaking core (`src/src/layout/line.rs`).

The file embeds the `LineLayouter` of `line.rs` shallowly in Lean. The
geometry value types, the alignment enum and the external stacking layouter
are not part of the given source tree (the line layouter imports them via
`use super::*`); they are modelled from the specification, each such
definition carrying a doc comment that starts with `Modelled from the spec:`.
The stacking layouter is specified only at its interface, so it is embedded
as a recorder of the requests issued to it, with its query answers supplied
by an arbitrary oracle; theorems therefore hold for every behaviour of that
collaborator. Machine floats (`f64`) are modelled as integers: the source applies only
addition, subtraction, negation, doubling, `min`, `max` and comparisons to
them, so every theorem below is an algebraic statement valid over any
linearly ordered ring, stated here over `ℤ` so that concrete witnesses are
kernel-computable.
-/

namespace Typst

/-- Modelled from the spec: a physical size (width, height) (§3). -/
structure Size where
  width : ℤ
  height : ℤ
deriving DecidableEq

/-- The zero size. -/
def Size.ZERO : Size := ⟨0, 0⟩

/-- Modelled from the spec: a physical point (§3). -/
structure Point where
  x : ℤ
  y : ℤ
deriving DecidableEq

/-- Constructor mirroring `Point::new`. -/
def Point.new (x y : ℤ) : Point := ⟨x, y⟩

/-- Modelled from the spec: the two physical axes. -/
inductive SpecAxis where
  | horizontal
  | vertical
deriving DecidableEq

/-- Modelled from the spec: a layouting direction (left-to-right,
right-to-left, top-to-bottom, bottom-to-top). -/
inductive Dir where
  | ltr
  | rtl
  | ttb
  | btt
deriving DecidableEq

/-- The physical axis a direction runs along. -/
def Dir.axis : Dir → SpecAxis
  | .ltr => .horizontal
  | .rtl => .horizontal
  | .ttb => .vertical
  | .btt => .vertical

/-- Whether the direction has positive polarity along its axis. -/
def Dir.is_positive : Dir → Bool
  | .ltr => true
  | .ttb => true
  | .rtl => false
  | .btt => false

/-- Modelled from the spec: a pair of values, one per generalized axis (§3). -/
structure Gen2 (α : Type) where
  main : α
  cross : α
deriving DecidableEq

/-- Modelled from the spec: alignment along one generalized axis (§3). -/
inductive GenAlign where
  | start
  | center
  | end_
deriving DecidableEq

/-- Position of an alignment in the order Start < Center < End. -/
def GenAlign.idx : GenAlign → Nat
  | .start => 0
  | .center => 1
  | .end_ => 2

/-- Modelled from the spec: the strict order Start < Center < End used when
comparing cross alignments (§4.1). -/
def GenAlign.lt (a b : GenAlign) : Bool := decide (a.idx < b.idx)

/-- Modelled from the spec: the default alignment used when a run's alignment
was never set (`unwrap_or_default`): Start on both axes. -/
def defaultAligns : Gen2 GenAlign := ⟨.start, .start⟩

/-- Component of a size along a physical axis. -/
def Size.get (s : Size) : SpecAxis → ℤ
  | .horizontal => s.width
  | .vertical => s.height

/-- Replace the component of a size along a physical axis (`get_mut` write). -/
def Size.set (s : Size) (axis : SpecAxis) (v : ℤ) : Size :=
  match axis with
  | .horizontal => { s with width := v }
  | .vertical => { s with height := v }

/-- Modelled from the spec: conversion from the physical (width, height) frame
to the generalized frame given the direction pair; the generalized width is
the cross extent and the generalized height the main extent, so the
components swap exactly when the main direction is horizontal (§3). -/
def Size.generalized (s : Size) (dirs : Gen2 Dir) : Size :=
  match dirs.main.axis with
  | .horizontal => ⟨s.height, s.width⟩
  | .vertical => s

/-- Modelled from the spec: the inverse conversion back to the physical
frame (the component swap is an involution). -/
def Size.specialized (s : Size) (dirs : Gen2 Dir) : Size :=
  s.generalized dirs

/-- Modelled from the spec: whether `other` fits into `s` on both axes. -/
def Size.fits (s other : Size) : Bool :=
  decide (other.width ≤ s.width) && decide (other.height ≤ s.height)

/-- Modelled from the spec: an already-sized content box with positioned
children (§3). -/
inductive BoxLayout where
  | mk (size : Size) (elements : List (Point × BoxLayout))

/-- The size of a box. -/
def BoxLayout.size : BoxLayout → Size
  | .mk s _ => s

/-- The positioned children of a box. -/
def BoxLayout.elements : BoxLayout → List (Point × BoxLayout)
  | .mk _ es => es

/-- Constructor mirroring `BoxLayout::new`: an empty box of a given size. -/
def BoxLayout.new (size : Size) : BoxLayout := .mk size []

/-- Mirroring `BoxLayout::push_layout`: append a positioned child. -/
def BoxLayout.push_layout (b : BoxLayout) (pos : Point) (child : BoxLayout) :
    BoxLayout :=
  .mk b.size (b.elements ++ [(pos, child)])

/-- Modelled from the spec: a spacing request, hard or soft with a priority
level (lower level = higher priority) (§3). -/
inductive SpacingKind where
  | Hard
  | Soft (level : ℕ)
deriving DecidableEq

/-- Modelled from the spec: the reserved soft priority level used for
inter-line spacing (§6). -/
def SpacingKind.LINE : SpacingKind := .Soft 2

/-- Modelled from the spec: the pending-spacing state of a run (§3). -/
inductive LastSpacing where
  | none
  | hard
  | soft (spacing : ℤ) (level : ℕ)
deriving DecidableEq

/-- Modelled from the spec: a layouting space with a usable size (§3). -/
structure LayoutSpace where
  size : Size
deriving DecidableEq

/-- An observable request issued by the line layouter to the external
stacking layouter. -/
inductive StackEvent where
  | add (layout : BoxLayout) (aligns : Gen2 GenAlign)
  | spacing (amount : ℤ) (kind : SpacingKind)
  | finishSpace (hard : Bool)
  | skipToFittingSpace (size : Size)
  | setSpaces (spaces : List LayoutSpace) (replaceEmpty : Bool)

/-- Modelled from the spec: the construction context of the stacking
layouter (§6). -/
structure StackContext where
  spaces : List LayoutSpace
  dirs : Gen2 Dir
  «repeat» : Bool

/-- Modelled from the spec: the external stacking layouter, specified only at
its interface (§6): we record the requests issued to it in order. -/
structure StackLayouter where
  ctx : StackContext
  events : List StackEvent

/-- Modelled from the spec: the query half of the stacking layouter's
interface (§6), abstracted as arbitrary functions of its observable state so
that each theorem holds for every behaviour of the collaborator. -/
structure StackOracle where
  usableFn : StackLayouter → Size
  fitsAlignFn : StackLayouter → Gen2 GenAlign → Bool
  remainingFn : StackLayouter → List LayoutSpace
  finishFn : StackLayouter → List BoxLayout

/-- A fresh stacking layouter: no requests issued yet. -/
def StackLayouter.new (ctx : StackContext) : StackLayouter := ⟨ctx, []⟩

/-- `StackLayouter::add`: place a finished line. -/
def StackLayouter.add (s : StackLayouter) (layout : BoxLayout)
    (aligns : Gen2 GenAlign) : StackLayouter :=
  { s with events := s.events ++ [.add layout aligns] }

/-- `StackLayouter::add_spacing`. -/
def StackLayouter.add_spacing (s : StackLayouter) (amount : ℤ)
    (kind : SpacingKind) : StackLayouter :=
  { s with events := s.events ++ [.spacing amount kind] }

/-- `StackLayouter::finish_space`. -/
def StackLayouter.finish_space (s : StackLayouter) (hard : Bool) :
    StackLayouter :=
  { s with events := s.events ++ [.finishSpace hard] }

/-- `StackLayouter::skip_to_fitting_space`. -/
def StackLayouter.skip_to_fitting_space (s : StackLayouter) (size : Size) :
    StackLayouter :=
  { s with events := s.events ++ [.skipToFittingSpace size] }

/-- `StackLayouter::set_spaces`. -/
def StackLayouter.set_spaces (s : StackLayouter) (spaces : List LayoutSpace)
    (replaceEmpty : Bool) : StackLayouter :=
  { s with events := s.events ++ [.setSpaces spaces replaceEmpty] }

/-- `StackLayouter::usable`, answered by the oracle. -/
def StackLayouter.usable (s : StackLayouter) (o : StackOracle) : Size :=
  o.usableFn s

/-- `StackLayouter::is_fitting_alignment`, answered by the oracle. -/
def StackLayouter.is_fitting_alignment (s : StackLayouter) (o : StackOracle)
    (aligns : Gen2 GenAlign) : Bool :=
  o.fitsAlignFn s aligns

/-- `StackLayouter::remaining`, answered by the oracle. -/
def StackLayouter.remaining (s : StackLayouter) (o : StackOracle) :
    List LayoutSpace :=
  o.remainingFn s

/-- `StackLayouter::finish`, answered by the oracle. -/
def StackLayouter.finish (s : StackLayouter) (o : StackOracle) :
    List BoxLayout :=
  o.finishFn s

/-- The context for line layouting (`LineContext`, line.rs:24). -/
structure LineContext where
  dirs : Gen2 Dir
  spaces : List LayoutSpace
  «repeat» : Bool
  line_spacing : ℤ

/-- A sequence of boxes with the same alignment (`LineRun`, line.rs:232). -/
structure LineRun where
  layouts : List (ℤ × BoxLayout)
  size : Size
  aligns : Option (Gen2 GenAlign)
  usable : Option ℤ
  last_spacing : LastSpacing

/-- `LineRun::new` (line.rs:252): empty, with last spacing counting as hard. -/
def LineRun.new : LineRun :=
  { layouts := []
    size := Size.ZERO
    aligns := Option.none
    usable := Option.none
    last_spacing := LastSpacing.hard }

/-- The line layouter (`LineLayouter`, line.rs:13). -/
structure LineLayouter where
  ctx : LineContext
  stack : StackLayouter
  run : LineRun

/-- `LineLayouter::new` (line.rs:38). -/
def LineLayouter.new (ctx : LineContext) : LineLayouter :=
  { ctx := ctx
    stack := StackLayouter.new ⟨ctx.spaces, ctx.dirs, ctx.«repeat»⟩
    run := LineRun.new }

/-- `LineLayouter::usable` (line.rs:112): remaining room of the line. -/
def LineLayouter.usable (L : LineLayouter) (o : StackOracle) : Size :=
  let u := (L.stack.usable o).generalized L.ctx.dirs
  let w := match L.run.usable with
    | Option.some cross => cross
    | Option.none => u.width
  ⟨w - L.run.size.width, u.height⟩

/-- `LineLayouter::line_is_empty` (line.rs:179). -/
def LineLayouter.line_is_empty (L : LineLayouter) : Bool :=
  decide (L.run.size = Size.ZERO) && L.run.layouts.isEmpty

/-- The physical position a queued (offset, child) pair receives inside the
finished line (line.rs:204–213): the offset itself under positive cross
polarity, the mirrored `run_width - offset - child_cross_extent` under
negative polarity. -/
def LineLayouter.linePos (L : LineLayouter) (p : ℤ × BoxLayout) : Point :=
  Point.new
    (if L.ctx.dirs.cross.is_positive then p.1
      else L.run.size.width - p.1 - p.2.size.get L.ctx.dirs.cross.axis)
    0

/-- `LineLayouter::finish_line` (line.rs:198): turn the run into a box,
mirroring offsets when the cross direction has negative polarity, push it to
the stack, reset the run and issue the configured line spacing. -/
def LineLayouter.finish_line (L : LineLayouter) : LineLayouter :=
  let aligns := L.run.aligns.getD defaultAligns
  let base := BoxLayout.new (L.run.size.specialized L.ctx.dirs)
  let layout := L.run.layouts.foldl
    (fun acc p => acc.push_layout (L.linePos p) p.2)
    base
  let stack := (L.stack.add layout aligns).add_spacing L.ctx.line_spacing
    SpacingKind.LINE
  { L with stack := stack, run := LineRun.new }

/-- `LineLayouter::finish_line_if_not_empty` (line.rs:223). -/
def LineLayouter.finish_line_if_not_empty (L : LineLayouter) : LineLayouter :=
  if L.line_is_empty then L else L.finish_line

/-- `LineLayouter::finish_space` (line.rs:192). -/
def LineLayouter.finish_space (L : LineLayouter) (hard : Bool) : LineLayouter :=
  let L := L.finish_line_if_not_empty
  { L with stack := L.stack.finish_space hard }

/-- `LineLayouter::finish` (line.rs:184). -/
def LineLayouter.finish (L : LineLayouter) (o : StackOracle) : List BoxLayout :=
  (L.finish_line_if_not_empty).stack.finish o

/-- Whether a soft request overwrites the pending state: pending is `None`,
or pending is `Soft` with a strictly larger (lower-priority) level
(line.rs:143). -/
def softConsumes (pending : LastSpacing) (level : ℕ) : Bool :=
  match pending with
  | .none => true
  | .soft _ prev => decide (level < prev)
  | _ => false

/-- `LineLayouter::add_cross_spacing` (line.rs:132): hard spacing is clamped
to the usable width and applied at once; soft spacing is cached subject to
the priority rule. -/
def LineLayouter.add_cross_spacing (L : LineLayouter) (o : StackOracle)
    (spacing : ℤ) (kind : SpacingKind) : LineLayouter :=
  match kind with
  | .Hard =>
    let spacing := min spacing (L.usable o).width
    { L with run := { L.run with
        size := ⟨L.run.size.width + spacing, L.run.size.height⟩
        last_spacing := LastSpacing.hard } }
  | .Soft level =>
    if softConsumes L.run.last_spacing level then
      { L with run := { L.run with
          last_spacing := LastSpacing.soft spacing level } }
    else L

/-- `LineLayouter::add_main_spacing` (line.rs:126). -/
def LineLayouter.add_main_spacing (L : LineLayouter) (spacing : ℤ)
    (kind : SpacingKind) : LineLayouter :=
  let L := L.finish_line_if_not_empty
  { L with stack := L.stack.add_spacing spacing kind }

/-- `LineLayouter::set_spaces` (line.rs:161). -/
def LineLayouter.set_spaces (L : LineLayouter) (spaces : List LayoutSpace)
    (replace_empty : Bool) : LineLayouter :=
  { L with stack := L.stack.set_spaces spaces (replace_empty && L.line_is_empty) }

/-- `LineLayouter::set_line_spacing` (line.rs:166). -/
def LineLayouter.set_line_spacing (L : LineLayouter) (line_spacing : ℤ) :
    LineLayouter :=
  { L with ctx := { L.ctx with line_spacing := line_spacing } }

/-- `LineLayouter::remaining` (line.rs:172): the stack's remaining spaces
with the first space's main extent reduced by the run's height. The source
indexes the first space unconditionally; an empty answer is outside its
domain, hence `Option`. -/
def LineLayouter.remaining (L : LineLayouter) (o : StackOracle) :
    Option (List LayoutSpace) :=
  match L.stack.remaining o with
  | [] => Option.none
  | s :: rest =>
    let axis := L.ctx.dirs.main.axis
    Option.some
      ({ s with size := s.size.set axis (s.size.get axis - L.run.size.height) }
        :: rest)

/-- Spawn the sibling run sharing the row (line.rs:65–79): the rest run
carries the usable override and inherits the height; the previous run is
finished as a line and a compensating negative hard spacing is issued. -/
def LineLayouter.spawnRest (L : LineLayouter) (u : ℤ) : LineLayouter :=
  let rest_run : LineRun :=
    { layouts := []
      size := ⟨0, L.run.size.height⟩
      aligns := Option.none
      usable := Option.some u
      last_spacing := LastSpacing.hard }
  let L2 := L.finish_line
  { L2 with
      stack := L2.stack.add_spacing (-(rest_run.size.height)) SpacingKind.Hard
      run := rest_run }

/-- The alignment-reconciliation step of `LineLayouter::add`
(line.rs:52–81). Returns `none` exactly when the source would hit the
`unreachable!("start > x")` arm. -/
def LineLayouter.reconcile (L : LineLayouter) (o : StackOracle)
    (aligns : Gen2 GenAlign) : Option LineLayouter :=
  match L.run.aligns with
  | Option.none => Option.some L
  | Option.some prev =>
    if aligns.main ≠ prev.main then
      let fitting := L.stack.is_fitting_alignment o aligns
      Option.some
        (if !fitting && L.ctx.«repeat» then L.finish_space true
          else L.finish_line)
    else if GenAlign.lt aligns.cross prev.cross then
      Option.some L.finish_line
    else if GenAlign.lt prev.cross aligns.cross then
      let usable := (L.stack.usable o).get L.ctx.dirs.cross.axis
      match aligns.cross with
      | GenAlign.start => Option.none
      | GenAlign.center =>
        Option.some (L.spawnRest (usable - 2 * L.run.size.width))
      | GenAlign.end_ =>
        Option.some (L.spawnRest (usable - L.run.size.width))
    else Option.some L

/-- The pending-soft-spacing conversion step of `LineLayouter::add`
(line.rs:83–85): cached soft spacing becomes hard spacing before the box. -/
def LineLayouter.consume_soft (L : LineLayouter) (o : StackOracle) :
    LineLayouter :=
  match L.run.last_spacing with
  | .soft spacing _ => L.add_cross_spacing o spacing SpacingKind.Hard
  | _ => L

/-- The fit-check-and-record step of `LineLayouter::add` (line.rs:87–105). -/
def LineLayouter.place (L : LineLayouter) (o : StackOracle)
    (layout : BoxLayout) (aligns : Gen2 GenAlign) : LineLayouter :=
  let size := layout.size.generalized L.ctx.dirs
  let L :=
    if !((L.usable o).fits size) then
      let L := if !L.line_is_empty then L.finish_line else L
      if !((L.usable o).fits size) then
        { L with stack := L.stack.skip_to_fitting_space layout.size }
      else L
    else L
  { L with run :=
      { layouts := L.run.layouts ++ [(L.run.size.width, layout)]
        size := ⟨L.run.size.width + size.width,
          max L.run.size.height size.height⟩
        aligns := Option.some aligns
        usable := L.run.usable
        last_spacing := LastSpacing.none } }

/-- `LineLayouter::add` (line.rs:51–106): reconcile alignments, consume
pending soft spacing, then fit-check and record the box. -/
def LineLayouter.add (L : LineLayouter) (o : StackOracle) (layout : BoxLayout)
    (aligns : Gen2 GenAlign) : Option LineLayouter :=
  (L.reconcile o aligns).map fun L1 => (L1.consume_soft o).place o layout aligns

/-- Iterated `add` over a list of boxes with alignments. -/
def LineLayouter.addAll (L : LineLayouter) (o : StackOracle)
    (items : List (BoxLayout × Gen2 GenAlign)) : Option LineLayouter :=
  match items with
  | [] => Option.some L
  | (b, a) :: rest => (L.add o b a).bind fun L2 => L2.addAll o rest

/-- Discriminant of a stack request, used to describe traces compactly:
0 = line added, 1 = spacing, 2 = space finished, 3 = skip to fitting space,
4 = spaces replaced. -/
def StackEvent.tag : StackEvent → ℕ
  | .add _ _ => 0
  | .spacing _ _ => 1
  | .finishSpace _ => 2
  | .skipToFittingSpace _ => 3
  | .setSpaces _ _ => 4

/-- The (offset, box) pairs a run accumulates when boxes are appended starting
at cross offset `w`: each box lands at the cumulative cross extent of the
boxes before it. -/
def offsetBoxes (dirs : Gen2 Dir) (w : ℤ) : List BoxLayout → List (ℤ × BoxLayout)
  | [] => []
  | b :: rest => (w, b) :: offsetBoxes dirs (w + (b.size.generalized dirs).width) rest

/-- Example direction pair: top-to-bottom main axis, left-to-right cross axis. -/
def exDirs : Gen2 Dir := ⟨.ttb, .ltr⟩

/-- Example context: one 100 by 100 space, repeating, line spacing 5. -/
def exCtx : LineContext := ⟨exDirs, [⟨⟨100, 100⟩⟩], true, 5⟩

/-- Example alignment: start on both axes. -/
def exA : Gen2 GenAlign := ⟨.start, .start⟩

/-- Example oracle: constant 100 by 100 usable size, every alignment fits,
two remaining spaces, empty final output. -/
def exOracle : StackOracle :=
  { usableFn := fun _ => ⟨100, 100⟩
    fitsAlignFn := fun _ _ => true
    remainingFn := fun _ => [⟨⟨100, 60⟩⟩, ⟨⟨100, 100⟩⟩]
    finishFn := fun _ => [] }

/-- Example box of cross extent 10 and main extent 20 (physical 10 by 20
under vertical main axis). -/
def exBox : BoxLayout := BoxLayout.new ⟨10, 20⟩

/-- A layouter state whose run holds a cached soft spacing of amount 7 at
level 2 and no captured alignment. -/
def c3L : LineLayouter :=
  { ctx := exCtx
    stack := StackLayouter.new ⟨exCtx.spaces, exCtx.dirs, exCtx.«repeat»⟩
    run :=
      { layouts := []
        size := Size.ZERO
        aligns := Option.none
        usable := Option.none
        last_spacing := LastSpacing.soft 7 2 } }

/-- Non-repeating variant of the example context. -/
def c1Ctx : LineContext := ⟨exDirs, [⟨⟨100, 100⟩⟩], false, 5⟩

/-- Oracle that reports every alignment as non-fitting. -/
def noFitOracle : StackOracle :=
  { usableFn := fun _ => ⟨100, 100⟩
    fitsAlignFn := fun _ _ => false
    remainingFn := fun _ => [⟨⟨100, 100⟩⟩]
    finishFn := fun _ => [] }

/-- Alignment differing from `exA` on the main axis. -/
def c1A2 : Gen2 GenAlign := ⟨.center, .start⟩

/-- Non-repeating layouter after one box with alignment `exA` was added. -/
def c1L : LineLayouter :=
  ((LineLayouter.new c1Ctx).add noFitOracle exBox exA).getD (LineLayouter.new c1Ctx)

/-- Repeating layouter after one box with alignment `exA` was added, driven
by the non-fitting oracle. -/
def c1wL : LineLayouter :=
  ((LineLayouter.new exCtx).add noFitOracle exBox exA).getD (LineLayouter.new exCtx)

/-- Result of adding a second box whose main alignment differs, in the
non-repeating context. -/
def c1L2 : LineLayouter := (c1L.add noFitOracle exBox c1A2).getD c1L

/-- Layouter after one box with alignment `exA` was added, driven by the
always-fitting example oracle. -/
def c2L : LineLayouter :=
  ((LineLayouter.new exCtx).add exOracle exBox exA).getD (LineLayouter.new exCtx)

/-- Alignment equal to `exA` on the main axis and strictly larger (End) on
the cross axis. -/
def c2A2 : Gen2 GenAlign := ⟨.start, .end_⟩

/-- Cross-extent-10 box of main extent 50: fits the 100 by 100 space. -/
def c4b1 : BoxLayout := BoxLayout.new ⟨10, 50⟩

/-- Cross-extent-10 box of main extent 200: its main extent overflows the
100 by 100 space although its cross extent fits. -/
def c4b2 : BoxLayout := BoxLayout.new ⟨10, 200⟩

/-- Result of adding `c4b1` then `c4b2`, both with alignment `exA`. -/
def c4L : LineLayouter :=
  ((LineLayouter.new exCtx).addAll exOracle [(c4b1, exA), (c4b2, exA)]).getD
    (LineLayouter.new exCtx)

/-- Context with negative cross polarity: main top-to-bottom, cross
right-to-left. -/
def c5Ctx : LineContext := ⟨⟨.ttb, .rtl⟩, [⟨⟨100, 100⟩⟩], true, 5⟩

/-- First-added box of the mirroring example: cross extent 10. -/
def c5b1 : BoxLayout := BoxLayout.new ⟨10, 5⟩

/-- Second-added box of the mirroring example: cross extent 20. -/
def c5b2 : BoxLayout := BoxLayout.new ⟨20, 5⟩

/-- A right-to-left run holding `c5b1` at offset 0 and `c5b2` at offset 10,
of total cross extent 30. -/
def c5L : LineLayouter :=
  { ctx := c5Ctx
    stack := StackLayouter.new ⟨c5Ctx.spaces, c5Ctx.dirs, c5Ctx.«repeat»⟩
    run :=
      { layouts := [(0, c5b1), (10, c5b2)]
        size := ⟨30, 5⟩
        aligns := Option.some exA
        usable := Option.none
        last_spacing := LastSpacing.none } }

/-- Oracle whose usable size has cross width zero. -/
def zeroWidthOracle : StackOracle :=
  { usableFn := fun _ => ⟨0, 100⟩
    fitsAlignFn := fun _ _ => true
    remainingFn := fun _ => [⟨⟨0, 100⟩⟩]
    finishFn := fun _ => [] }

/-- The alignment order is asymmetric. -/
theorem GenAlign.lt_asymm (a b : GenAlign) (h : GenAlign.lt a b = true) :
    GenAlign.lt b a = false := by
  revert h
  cases a <;> cases b <;> decide

/-- The alignment order is irreflexive. -/
theorem GenAlign.lt_self (a : GenAlign) : GenAlign.lt a a = false := by
  cases a <;> decide

/-- Folding `push_layout` over a list appends the mapped entries to the
accumulator's children and keeps its size. -/
theorem foldl_push_layout (f : ℤ × BoxLayout → Point)
    (l : List (ℤ × BoxLayout)) :
    ∀ base : BoxLayout,
      l.foldl (fun acc p => acc.push_layout (f p) p.2) base =
        BoxLayout.mk base.size (base.elements ++ l.map fun p => (f p, p.2)) := by
  induction l with
  | nil =>
    intro base
    cases base
    simp [BoxLayout.size, BoxLayout.elements]
  | cons p rest ih =>
    intro base
    rw [List.foldl_cons, ih]
    simp [BoxLayout.push_layout, BoxLayout.size, BoxLayout.elements]

/-- C6: finishing a line on an empty run is a no-op: `finish()` on a freshly
constructed layouter yields output identical to that of a stacking layouter
constructed with the same spaces, directions and repeat flag that received
zero lines and zero spacing requests. -/
theorem finish_on_untouched_layouter_equals_empty_stack
    (ctx : LineContext) (o : StackOracle) :
    (LineLayouter.new ctx).finish o =
      (StackLayouter.new ⟨ctx.spaces, ctx.dirs, ctx.«repeat»⟩).finish o := rfl

/-- C7: the `unreachable!` arm for `GenAlign::Start` in `add` is dead code:
for every state, oracle, box and alignment, `add` succeeds, because the
sibling-run branch requires the new cross alignment to be strictly larger
than the captured one and `Start` is minimal in the alignment order. -/
theorem add_start_unreachable_branch_is_dead (L : LineLayouter)
    (o : StackOracle) (layout : BoxLayout) (aligns : Gen2 GenAlign) :
    (L.add o layout aligns).isSome = true := by
  unfold LineLayouter.add LineLayouter.reconcile
  cases hA : L.run.aligns with
  | none => rfl
  | some prev =>
    dsimp only
    split
    · simp
    · split
      · simp
      · split
        · rename_i hlt
          cases hcross : aligns.cross
          · rw [hcross] at hlt
            cases prev.cross <;> simp [GenAlign.lt, GenAlign.idx] at hlt
          · simp
          · simp
        · simp

/-- C8: `remaining()` returns the stacking layouter's remaining spaces with
exactly one modification: the first space's main-axis extent is reduced by
the current run's main-axis size; every other field of the first space and
all later spaces are unchanged (the model is pure, so no state is mutated). -/
theorem remaining_reduces_first_space_main_extent (L : LineLayouter)
    (o : StackOracle) (s : LayoutSpace) (rest : List LayoutSpace)
    (h : L.stack.remaining o = s :: rest) :
    L.remaining o = Option.some
      ({ size := s.size.set L.ctx.dirs.main.axis
          (s.size.get L.ctx.dirs.main.axis - L.run.size.height) } :: rest) := by
  unfold LineLayouter.remaining
  rw [h]

/-- Witness for C8 at a concrete input: a fresh layouter with run height 0
leaves both remaining spaces unchanged. -/
theorem remaining_reduces_first_space_main_extent_witness :
    (LineLayouter.new exCtx).remaining exOracle =
      Option.some [⟨⟨100, 60⟩⟩, ⟨⟨100, 100⟩⟩] := by
  have h := remaining_reduces_first_space_main_extent (LineLayouter.new exCtx)
    exOracle ⟨⟨100, 60⟩⟩ [⟨⟨100, 100⟩⟩] rfl
  simpa [Size.set, Size.get, exCtx, exDirs, Dir.axis, LineLayouter.new,
    LineRun.new, Size.ZERO] using h

/-- C9: every freshly created run (at construction, after every finished
line, and in a spawned sibling run) has pending-spacing state hard-just-
applied rather than `None`; consequently a soft cross-spacing request issued
on such a run before any box or hard spacing is silently dropped. -/
theorem fresh_run_counts_as_hard_spacing_and_drops_first_soft
    (ctx : LineContext) (L : LineLayouter) (o : StackOracle) (s u : ℤ)
    (lvl : ℕ) :
    (LineLayouter.new ctx).run.last_spacing = LastSpacing.hard ∧
    (L.finish_line).run.last_spacing = LastSpacing.hard ∧
    (L.spawnRest u).run.last_spacing = LastSpacing.hard ∧
    (L.run.last_spacing = LastSpacing.hard →
      L.add_cross_spacing o s (SpacingKind.Soft lvl) = L) := by
  refine ⟨rfl, rfl, rfl, fun h => ?_⟩
  unfold LineLayouter.add_cross_spacing
  rw [h]
  rfl

/-- Witness for C9 at a concrete input: a soft request of amount 5 at level 1
on a freshly constructed layouter is dropped without any state change. -/
theorem fresh_run_counts_as_hard_spacing_and_drops_first_soft_witness :
    (LineLayouter.new exCtx).add_cross_spacing exOracle 5
      (SpacingKind.Soft 1) = LineLayouter.new exCtx :=
  (fresh_run_counts_as_hard_spacing_and_drops_first_soft exCtx
    (LineLayouter.new exCtx) exOracle 5 0 1).2.2.2 rfl

/-- C3: a soft cross-spacing request overwrites the run's pending-spacing
state exactly when that state is `None` or itself soft with a strictly
larger level; otherwise it is silently dropped; and a cached soft amount is
converted to hard applied spacing before the next box is placed, so of two
adjacent soft requests only the lower-level amount is ever materialized. -/
theorem soft_cross_spacing_collapses_to_lower_level (L : LineLayouter)
    (o : StackOracle) (s : ℤ) (lvl : ℕ) (layout : BoxLayout)
    (aligns : Gen2 GenAlign) :
    (L.add_cross_spacing o s (SpacingKind.Soft lvl) =
      if softConsumes L.run.last_spacing lvl then
        { L with run := { L.run with last_spacing := LastSpacing.soft s lvl } }
      else L) ∧
    (softConsumes L.run.last_spacing lvl = true ↔
      L.run.last_spacing = LastSpacing.none ∨
        ∃ a prev, L.run.last_spacing = LastSpacing.soft a prev ∧ lvl < prev) ∧
    (∀ s0 lvl0, L.run.aligns = Option.none →
      L.run.last_spacing = LastSpacing.soft s0 lvl0 →
      L.add o layout aligns =
        Option.some ((L.add_cross_spacing o s0 SpacingKind.Hard).place o
          layout aligns)) := by
  refine ⟨rfl, ?_, ?_⟩
  · cases h : L.run.last_spacing with
    | none => simp [softConsumes]
    | hard => simp [softConsumes]
    | soft a p =>
      simp only [softConsumes, decide_eq_true_eq]
      constructor
      · intro hl
        exact Or.inr ⟨a, p, rfl, hl⟩
      · rintro (hc | ⟨a', p', hsp, hl⟩)
        · cases hc
        · cases hsp
          exact hl
  · intro s0 lvl0 hA hS
    have hrec : L.reconcile o aligns = Option.some L := by
      unfold LineLayouter.reconcile
      rw [hA]
    have hcs : L.consume_soft o = L.add_cross_spacing o s0 SpacingKind.Hard := by
      unfold LineLayouter.consume_soft
      rw [hS]
    unfold LineLayouter.add
    rw [hrec, Option.map_some', hcs]

/-- Witness for C3 at concrete inputs: on a pending soft (amount 7, level
2), a soft request (amount 3, level 1) overwrites the cache, and a cached
soft amount 7 is materialized as hard spacing when a box arrives. -/
theorem soft_cross_spacing_collapses_to_lower_level_witness :
    (c3L.add_cross_spacing exOracle 3 (SpacingKind.Soft 1) =
      { c3L with run := { c3L.run with last_spacing := LastSpacing.soft 3 1 } }) ∧
    (c3L.add exOracle exBox exA =
      Option.some ((c3L.add_cross_spacing exOracle 7 SpacingKind.Hard).place
        exOracle exBox exA)) := by
  have h := soft_cross_spacing_collapses_to_lower_level c3L exOracle 3 1 exBox exA
  refine ⟨?_, h.2.2 7 2 rfl rfl⟩
  rw [h.1]
  rfl

/-- C1 (amended): when a run is active and the main alignment changes, `add`
forces a hard space break exactly when the stacking layouter reports the new
alignment as non-fitting AND the repeat flag is set; otherwise — in
particular in every non-repeating context — it finishes the current line
normally. -/
theorem main_alignment_change_breaks_space_iff_nonfitting_and_repeating
    (L : LineLayouter) (o : StackOracle) (layout : BoxLayout)
    (aligns prev : Gen2 GenAlign) (h1 : L.run.aligns = Option.some prev)
    (h2 : aligns.main ≠ prev.main) :
    L.add o layout aligns = Option.some
      (((if !(L.stack.is_fitting_alignment o aligns) && L.ctx.«repeat» then
          L.finish_space true
        else L.finish_line).consume_soft o).place o layout aligns) := by
  unfold LineLayouter.add LineLayouter.reconcile
  rw [h1]
  simp [h2]

/-- Counterexample to C1 as stated: in a non-repeating context, with the
oracle reporting the changed alignment as non-fitting, `add` does not force
a hard space break — the trace gains only a line add (tag 0) and the line
spacing (tag 1), never a `finish_space` request (tag 2). -/
theorem main_alignment_change_nonfitting_nonrepeating_finishes_line_only :
    c1L.run.aligns = Option.some exA ∧
    c1A2.main ≠ exA.main ∧
    c1L.stack.is_fitting_alignment noFitOracle c1A2 = false ∧
    c1L.ctx.«repeat» = false ∧
    (c1L.add noFitOracle exBox c1A2).isSome = true ∧
    c1L2.stack.events.map StackEvent.tag = [0, 1] :=
  ⟨rfl, by decide, rfl, rfl, rfl, rfl⟩

/-- Witness for C1 (amended) at a concrete input: in a repeating context
with a non-fitting main-alignment change, the active space is closed hard. -/
theorem main_alignment_change_breaks_space_iff_nonfitting_and_repeating_witness :
    c1wL.add noFitOracle exBox c1A2 = Option.some
      (((if !(c1wL.stack.is_fitting_alignment noFitOracle c1A2) &&
            c1wL.ctx.«repeat» then
          c1wL.finish_space true
        else c1wL.finish_line).consume_soft noFitOracle).place noFitOracle
        exBox c1A2) :=
  main_alignment_change_breaks_space_iff_nonfitting_and_repeating c1wL
    noFitOracle exBox c1A2 exA rfl (by decide)

/-- C2: when the cross alignment strictly increases on the same main
alignment, `add` spawns a sibling run on the same visual row: its usable
override is the stack's usable cross width minus twice the prior run's width
for Center and minus it once for End; the new run inherits the previous
run's height; the previous run is finished as a line and a negative hard
main-axis spacing equal to that line's height follows it, so the two runs
have no net main-axis displacement between them. -/
theorem cross_alignment_increase_spawns_sibling_run (L : LineLayouter)
    (o : StackOracle) (aligns prev : Gen2 GenAlign)
    (h1 : L.run.aligns = Option.some prev) (h2 : aligns.main = prev.main)
    (h3 : GenAlign.lt prev.cross aligns.cross = true) :
    (aligns.cross = GenAlign.center →
      L.reconcile o aligns = Option.some
        (L.spawnRest ((L.stack.usable o).get L.ctx.dirs.cross.axis -
          2 * L.run.size.width))) ∧
    (aligns.cross = GenAlign.end_ →
      L.reconcile o aligns = Option.some
        (L.spawnRest ((L.stack.usable o).get L.ctx.dirs.cross.axis -
          L.run.size.width))) ∧
    (∀ u, (L.spawnRest u).run.usable = Option.some u ∧
      (L.spawnRest u).run.size.height = L.run.size.height ∧
      (L.spawnRest u).run.layouts = [] ∧
      (L.spawnRest u).stack.events =
        (L.finish_line).stack.events ++
          [StackEvent.spacing (-(L.run.size.height)) SpacingKind.Hard]) ∧
    (∀ layout, L.add o layout aligns = (L.reconcile o aligns).map
      fun L1 => (L1.consume_soft o).place o layout aligns) := by
  refine ⟨?_, ?_, fun u => ⟨rfl, rfl, rfl, rfl⟩, fun layout => rfl⟩ <;>
    intro hc <;>
    · unfold LineLayouter.reconcile
      rw [h1]
      dsimp only
      rw [if_neg (by simp [h2]), if_neg (by simp [GenAlign.lt_asymm _ _ h3]),
        if_pos h3, hc]

/-- Witness for C2 at a concrete input: after a Start box of cross width 10,
an End box spawns a sibling run with usable override `usable - 10`. -/
theorem cross_alignment_increase_spawns_sibling_run_witness :
    c2L.reconcile exOracle c2A2 = Option.some
      (c2L.spawnRest ((c2L.stack.usable exOracle).get c2L.ctx.dirs.cross.axis -
        c2L.run.size.width)) :=
  (cross_alignment_increase_spawns_sibling_run c2L exOracle c2A2 exA rfl rfl
    (by decide)).2.1 rfl

/-- C5: `finish_line` emits the run as one box whose children sit at
`x = offset` under positive cross polarity and at
`x = run_width - offset - child_cross_extent` under negative polarity; under
negative polarity the first-queued entry receives the largest x among
entries whose offset-plus-extent does not decrease. -/
theorem finish_line_mirrors_offsets_under_negative_polarity
    (L : LineLayouter) :
    ((L.finish_line).stack.events = L.stack.events ++
      [StackEvent.add
        (BoxLayout.mk (L.run.size.specialized L.ctx.dirs)
          (L.run.layouts.map fun p => (L.linePos p, p.2)))
        (L.run.aligns.getD defaultAligns),
       StackEvent.spacing L.ctx.line_spacing SpacingKind.LINE]) ∧
    (∀ p, L.linePos p = Point.new
      (if L.ctx.dirs.cross.is_positive then p.1
        else L.run.size.width - p.1 - p.2.size.get L.ctx.dirs.cross.axis)
      0) ∧
    (L.ctx.dirs.cross.is_positive = false →
      ∀ p0 rest, L.run.layouts = p0 :: rest →
      (∀ p ∈ rest, p0.1 + p0.2.size.get L.ctx.dirs.cross.axis ≤
        p.1 + p.2.size.get L.ctx.dirs.cross.axis) →
      ∀ p ∈ rest, (L.linePos p).x ≤ (L.linePos p0).x) := by
  refine ⟨?_, fun p => rfl, ?_⟩
  · unfold LineLayouter.finish_line
    dsimp only
    rw [foldl_push_layout]
    simp [StackLayouter.add, StackLayouter.add_spacing, BoxLayout.new,
      BoxLayout.size, BoxLayout.elements, List.append_assoc]
  · intro hneg p0 rest _ hchain p hp
    have h := hchain p hp
    simp only [LineLayouter.linePos, hneg, if_false, Point.new, Bool.false_eq_true]
    omega

/-- Witness for C5 at a concrete input: in the right-to-left run of width 30
holding (0, width 10) and (10, width 20), the first-queued box lands at
x = 20 and the second at x = 0, so the first has the largest x. -/
theorem finish_line_mirrors_offsets_under_negative_polarity_witness :
    (c5L.linePos (10, c5b2)).x ≤ (c5L.linePos (0, c5b1)).x :=
  (finish_line_mirrors_offsets_under_negative_polarity c5L).2.2 rfl
    (0, c5b1) [(10, c5b2)] rfl (by decide) (10, c5b2) (by simp)

/-- Invariant behind C4: adding boxes of one alignment whose remaining cross
extents fit next to the run and whose main extents fit the space appends
them to the run at cumulative offsets without any stack interaction. -/
theorem addAll_same_alignment_invariant (o : StackOracle) (a : Gen2 GenAlign) :
    ∀ (bs : List BoxLayout) (L : LineLayouter),
    (L.run.aligns = Option.none ∨ L.run.aligns = Option.some a) →
    (L.run.last_spacing = LastSpacing.hard ∨
      L.run.last_spacing = LastSpacing.none) →
    L.run.usable = Option.none →
    (∀ b ∈ bs, 0 ≤ (b.size.generalized L.ctx.dirs).width) →
    (L.run.size.width +
        (bs.map fun b => (b.size.generalized L.ctx.dirs).width).sum ≤
      ((L.stack.usable o).generalized L.ctx.dirs).width) →
    (∀ b ∈ bs, (b.size.generalized L.ctx.dirs).height ≤
      ((L.stack.usable o).generalized L.ctx.dirs).height) →
    ∃ L', L.addAll o (bs.map fun b => (b, a)) = Option.some L' ∧
      L'.ctx = L.ctx ∧
      L'.stack = L.stack ∧
      L'.run.layouts =
        L.run.layouts ++ offsetBoxes L.ctx.dirs L.run.size.width bs ∧
      L'.run.size.width = L.run.size.width +
        (bs.map fun b => (b.size.generalized L.ctx.dirs).width).sum ∧
      L'.run.size.height =
        (bs.map fun b => (b.size.generalized L.ctx.dirs).height).foldl max
          L.run.size.height ∧
      L'.run.usable = Option.none ∧
      (L'.run.aligns = Option.none ∨ L'.run.aligns = Option.some a) ∧
      (L'.run.last_spacing = LastSpacing.hard ∨
        L'.run.last_spacing = LastSpacing.none) := by
  intro bs
  induction bs with
  | nil =>
    intro L hA hS hU _ _ _
    exact ⟨L, rfl, rfl, rfl, by simp [offsetBoxes], by simp, by simp, hU, hA, hS⟩
  | cons b rest ih =>
    intro L hA hS hU hpos hW hH
    have hsumrest : 0 ≤ (rest.map fun b =>
        (b.size.generalized L.ctx.dirs).width).sum := by
      refine List.sum_nonneg ?_
      intro x hx
      obtain ⟨b', hb', rfl⟩ := List.mem_map.mp hx
      exact hpos b' (List.mem_cons_of_mem _ hb')
    have hrec : L.reconcile o a = Option.some L := by
      rcases hA with h | h
      · unfold LineLayouter.reconcile
        rw [h]
      · unfold LineLayouter.reconcile
        rw [h]
        dsimp only
        rw [if_neg (by simp), if_neg (by simp [GenAlign.lt_self]),
          if_neg (by simp [GenAlign.lt_self])]
    have hcs : L.consume_soft o = L := by
      rcases hS with h | h <;>
        · unfold LineLayouter.consume_soft
          rw [h]
    have husable : (L.usable o).width =
        ((L.stack.usable o).generalized L.ctx.dirs).width - L.run.size.width := by
      unfold LineLayouter.usable
      rw [hU]
    have husableh : (L.usable o).height =
        ((L.stack.usable o).generalized L.ctx.dirs).height := by
      unfold LineLayouter.usable
      rw [hU]
    have hfits : (L.usable o).fits (b.size.generalized L.ctx.dirs) = true := by
      have h1 : (b.size.generalized L.ctx.dirs).width ≤ (L.usable o).width := by
        rw [husable]
        rw [List.map_cons, List.sum_cons] at hW
        linarith
      have h2 : (b.size.generalized L.ctx.dirs).height ≤ (L.usable o).height := by
        rw [husableh]
        exact hH b (List.mem_cons_self b rest)
      simp [Size.fits, h1, h2]
    have hadd : L.add o b a = Option.some (L.place o b a) := by
      unfold LineLayouter.add
      rw [hrec, Option.map_some', hcs]
    have hplace : L.place o b a =
        { L with run :=
          { layouts := L.run.layouts ++ [(L.run.size.width, b)]
            size := ⟨L.run.size.width + (b.size.generalized L.ctx.dirs).width,
              max L.run.size.height (b.size.generalized L.ctx.dirs).height⟩
            aligns := Option.some a
            usable := L.run.usable
            last_spacing := LastSpacing.none } } := by
      unfold LineLayouter.place
      dsimp only
      rw [hfits]
      rfl
    obtain ⟨L', h1, h2, h3, h4, h5, h6, h7, h8, h9⟩ :=
      ih (L.place o b a)
        (by rw [hplace]; exact Or.inr rfl)
        (by rw [hplace]; exact Or.inr rfl)
        (by rw [hplace]; exact hU)
        (by rw [hplace]; intro b' hb'; exact hpos b' (List.mem_cons_of_mem _ hb'))
        (by
          rw [hplace]
          dsimp only
          rw [List.map_cons, List.sum_cons] at hW
          linarith)
        (by rw [hplace]; intro b' hb'; exact hH b' (List.mem_cons_of_mem _ hb'))
    refine ⟨L', ?_, ?_, ?_, ?_, ?_, ?_, h7, h8, h9⟩
    · rw [List.map_cons]
      show (L.add o b a).bind _ = _
      rw [hadd, Option.some_bind]
      exact h1
    · rw [h2, hplace]
    · rw [h3, hplace]
    · rw [h4, hplace]
      simp [offsetBoxes, List.append_assoc]
    · rw [h5, hplace]
      dsimp only
      rw [List.map_cons, List.sum_cons]
      ring
    · rw [h6, hplace]
      dsimp only
      rw [List.map_cons, List.foldl_cons]

/-- C4 (amended): for boxes of nonnegative generalized extents sharing one
alignment, if the cumulative cross extent is at most the usable width and
every box's main extent is at most the usable main extent, no line break
occurs: the stack receives no request, each box is recorded at the
cumulative cross offset of the boxes before it, the run's width is the sum
of the cross extents and the line's height is the maximum of the main
extents. -/
theorem same_alignment_fitting_boxes_share_one_line (ctx : LineContext)
    (o : StackOracle) (a : Gen2 GenAlign) (bs : List BoxLayout)
    (hpos : ∀ b ∈ bs, 0 ≤ (b.size.generalized ctx.dirs).width)
    (hW : (bs.map fun b => (b.size.generalized ctx.dirs).width).sum ≤
      (((LineLayouter.new ctx).stack.usable o).generalized ctx.dirs).width)
    (hH : ∀ b ∈ bs, (b.size.generalized ctx.dirs).height ≤
      (((LineLayouter.new ctx).stack.usable o).generalized ctx.dirs).height) :
    ∃ L', (LineLayouter.new ctx).addAll o (bs.map fun b => (b, a)) =
        Option.some L' ∧
      L'.stack.events = [] ∧
      L'.run.layouts = offsetBoxes ctx.dirs 0 bs ∧
      L'.run.size.width =
        (bs.map fun b => (b.size.generalized ctx.dirs).width).sum ∧
      L'.run.size.height =
        (bs.map fun b => (b.size.generalized ctx.dirs).height).foldl max 0 := by
  obtain ⟨L', h1, _, h3, h4, h5, h6, _, _, _⟩ :=
    addAll_same_alignment_invariant o a bs (LineLayouter.new ctx)
      (Or.inl rfl) (Or.inl rfl) rfl hpos
      (by simpa [LineLayouter.new, LineRun.new, Size.ZERO] using hW) hH
  refine ⟨L', h1, ?_, ?_, ?_, ?_⟩
  · rw [h3]
    rfl
  · simpa [LineLayouter.new, LineRun.new, Size.ZERO] using h4
  · simpa [LineLayouter.new, LineRun.new, Size.ZERO] using h5
  · simpa [LineLayouter.new, LineRun.new, Size.ZERO] using h6

/-- Counterexample to C4 as stated: two Start-aligned boxes of cross extents
10 and 10 (cumulative 20, well under the usable width 100) do NOT share one
line, because the second box's main extent 200 exceeds the usable main
extent 100: the trace shows a finished line (tag 0), line spacing (tag 1)
and a skip request (tag 3), and only one box remains in the run. -/
theorem tall_box_breaks_line_despite_fitting_cross_extents :
    (∀ b ∈ [c4b1, c4b2], 0 ≤ (b.size.generalized exCtx.dirs).width) ∧
    ([c4b1, c4b2].map fun b => (b.size.generalized exCtx.dirs).width).sum ≤
      (((LineLayouter.new exCtx).stack.usable exOracle).generalized
        exCtx.dirs).width ∧
    ((LineLayouter.new exCtx).addAll exOracle
      [(c4b1, exA), (c4b2, exA)]).isSome = true ∧
    c4L.stack.events.map StackEvent.tag = [0, 1, 3] ∧
    c4L.run.layouts.length = 1 :=
  ⟨by decide, by decide, rfl, rfl, rfl⟩

/-- Witness for C4 (amended) at a concrete input: two boxes of cross extent
10 and main extent 20 in the 100 by 100 space land on one line at offsets 0
and 10 with no stack request. -/
theorem same_alignment_fitting_boxes_share_one_line_witness :
    ∃ L', (LineLayouter.new exCtx).addAll exOracle
        ([exBox, exBox].map fun b => (b, exA)) = Option.some L' ∧
      L'.stack.events = [] ∧
      L'.run.layouts = offsetBoxes exCtx.dirs 0 [exBox, exBox] ∧
      L'.run.size.width =
        ([exBox, exBox].map fun b => (b.size.generalized exCtx.dirs).width).sum ∧
      L'.run.size.height =
        ([exBox, exBox].map fun b =>
          (b.size.generalized exCtx.dirs).height).foldl max 0 :=
  same_alignment_fitting_boxes_share_one_line exCtx exOracle exA [exBox, exBox]
    (by decide) (by decide) (by decide)

/-- C10 (amended): a positive Hard cross-spacing amount at most the current
usable cross width, issued on an empty run, makes `line_is_empty` false even
though the run holds no boxes; a subsequent `finish`, `finish_space` or
`add_main_spacing` therefore emits to the stacking layouter a line-box of
that width containing zero children, tagged with the default alignment. -/
theorem hard_cross_spacing_alone_makes_line_nonempty (L : LineLayouter)
    (o : StackOracle) (s : ℤ) (hrun : L.run = LineRun.new) (hs : 0 < s)
    (hu : s ≤ (L.usable o).width) :
    (L.add_cross_spacing o s SpacingKind.Hard).line_is_empty = false ∧
    (∀ hard,
      ((L.add_cross_spacing o s SpacingKind.Hard).finish_space hard).stack.events =
        L.stack.events ++
          [StackEvent.add (BoxLayout.new (Size.specialized ⟨s, 0⟩ L.ctx.dirs))
            defaultAligns,
           StackEvent.spacing L.ctx.line_spacing SpacingKind.LINE,
           StackEvent.finishSpace hard]) ∧
    (∀ sp k,
      ((L.add_cross_spacing o s SpacingKind.Hard).add_main_spacing sp k).stack.events =
        L.stack.events ++
          [StackEvent.add (BoxLayout.new (Size.specialized ⟨s, 0⟩ L.ctx.dirs))
            defaultAligns,
           StackEvent.spacing L.ctx.line_spacing SpacingKind.LINE,
           StackEvent.spacing sp k]) ∧
    ((L.add_cross_spacing o s SpacingKind.Hard).finish o =
      o.finishFn ((L.stack.add (BoxLayout.new (Size.specialized ⟨s, 0⟩ L.ctx.dirs))
        defaultAligns).add_spacing L.ctx.line_spacing SpacingKind.LINE)) := by
  have hmin : min s (L.usable o).width = s := min_eq_left hu
  have hLA : L.add_cross_spacing o s SpacingKind.Hard =
      { L with run :=
        { layouts := []
          size := ⟨s, 0⟩
          aligns := Option.none
          usable := Option.none
          last_spacing := LastSpacing.hard } } := by
    unfold LineLayouter.add_cross_spacing
    rw [hrun, hmin]
    simp [LineRun.new, Size.ZERO]
  have hne : (Size.mk s 0 = Size.ZERO) = False := by
    simp [Size.ZERO]
    intro h
    exact absurd h hs.ne'
  have hempty : (L.add_cross_spacing o s SpacingKind.Hard).line_is_empty = false := by
    rw [hLA]
    simp [LineLayouter.line_is_empty, hne]
  have hfl : (L.add_cross_spacing o s SpacingKind.Hard).finish_line_if_not_empty =
      (L.add_cross_spacing o s SpacingKind.Hard).finish_line := by
    unfold LineLayouter.finish_line_if_not_empty
    rw [hempty]
    rfl
  have hfin : (L.add_cross_spacing o s SpacingKind.Hard).finish_line =
      { ctx := L.ctx
        stack := (L.stack.add (BoxLayout.new (Size.specialized ⟨s, 0⟩ L.ctx.dirs))
          defaultAligns).add_spacing L.ctx.line_spacing SpacingKind.LINE
        run := LineRun.new } := by
    rw [hLA]
    rfl
  refine ⟨hempty, fun hard => ?_, fun sp k => ?_, ?_⟩
  · unfold LineLayouter.finish_space
    rw [hfl, hfin]
    simp [StackLayouter.add, StackLayouter.add_spacing, StackLayouter.finish_space]
  · unfold LineLayouter.add_main_spacing
    rw [hfl, hfin]
    simp [StackLayouter.add, StackLayouter.add_spacing]
  · unfold LineLayouter.finish
    rw [hfl, hfin]
    rfl

/-- Counterexample to C10 as stated: when the stacking layouter's usable
cross width is zero, a positive Hard cross-spacing request of amount 5 on
the empty run of a fresh layouter is clamped to zero, `line_is_empty` stays
true, and a subsequent hard `finish_space` emits no line-box at all (the
trace holds only the finish-space request, tag 2). -/
theorem zero_usable_hard_spacing_leaves_line_empty :
    (LineLayouter.new exCtx).run = LineRun.new ∧
    (0 : ℤ) < 5 ∧
    ((LineLayouter.new exCtx).add_cross_spacing zeroWidthOracle 5
      SpacingKind.Hard).line_is_empty = true ∧
    (((LineLayouter.new exCtx).add_cross_spacing zeroWidthOracle 5
      SpacingKind.Hard).finish_space true).stack.events.map StackEvent.tag =
      [2] :=
  ⟨rfl, by decide, rfl, rfl⟩

/-- Witness for C10 (amended) at a concrete input: hard cross spacing 5 on a
fresh layouter over the 100 by 100 space makes the line non-empty, and a
hard space finish emits a childless 5-wide line-box with default alignment
followed by the line spacing and the finish-space request. -/
theorem hard_cross_spacing_alone_makes_line_nonempty_witness :
    ((LineLayouter.new exCtx).add_cross_spacing exOracle 5
      SpacingKind.Hard).line_is_empty = false ∧
    (((LineLayouter.new exCtx).add_cross_spacing exOracle 5
      SpacingKind.Hard).finish_space true).stack.events =
      [StackEvent.add (BoxLayout.new (Size.specialized ⟨5, 0⟩ exCtx.dirs))
        defaultAligns,
       StackEvent.spacing exCtx.line_spacing SpacingKind.LINE,
       StackEvent.finishSpace true] := by
  have h := hard_cross_spacing_alone_makes_line_nonempty (LineLayouter.new exCtx)
    exOracle 5 rfl (by decide) (by decide)
  exact ⟨h.1, by simpa using h.2.1 true⟩

end Typst
